import Mathlib

/-!
Shallow embedding of the dotmatrix overlapping-circle detection and
calibration engine (src/dotmatrix/convex_detector.py,
src/dotmatrix/black_verification.py, src/dotmatrix/calibration.py),
with theorems settling the spec claims about it.

Conventions of the embedding:
* Python ints are `ℤ` (or `ℕ` where the source value is a count or an
  index that is provably nonnegative); Python float constants such as
  `np.pi` are embedded as the exact rational value of the IEEE-754
  double, and float comparisons as exact rational comparisons.
* The OpenCV / scipy primitives (connected components, contours, convex
  hull, convexity defects, HoughCircles, KDTree) are external library
  black boxes per spec section 6; their outputs are parameters of the
  embedded functions (`BlobData`, `CVPrims`), while everything the
  repository itself computes from those outputs is embedded literally.
* `verify_black_dot_detection` cannot run at all (its module imports
  `separate_cmyk_inks` and `CMYK_INK_COLORS`, which exist nowhere in the
  source; see claim C1), so the calibration functions, which only
  observe the verifier through the count and radius statistics it
  returns, are parametrized by an abstract verifier
  `v : ℤ → ℤ → VerifyOut`.
-/

namespace Dotmatrix

/-- RGB color triple. -/
abbrev RGB := ℤ × ℤ × ℤ

/-- Circle candidate as the `(x, y, radius)` tuples used by the source. -/
abbrev Circ := ℤ × ℤ × ℤ

/-- Embeds the `DetectedCircle` dataclass of convex_detector.py
(`x, y, radius, color, confidence` with default confidence `100.0`). -/
structure DetectedCircle where
  x : ℤ
  y : ℤ
  radius : ℤ
  color : RGB
  confidence : ℚ := 100
deriving DecidableEq

/-- Embeds `scipy.spatial.KDTree.query_ball_point([x, y], dedup_distance)`
membership: point `q` is returned for center `p` exactly when its Euclidean
distance to `p` is at most `dedup_distance` (so the boundary counts), which
for integer data is `dist² ≤ d²` together with `0 ≤ d`. -/
def withinDedup (d : ℤ) (p q : ℤ × ℤ) : Bool :=
  decide (0 ≤ d) && decide ((p.1 - q.1) ^ 2 + (p.2 - q.2) ^ 2 ≤ d ^ 2)

/-- Indices of the entries of `all` whose centers lie within the dedup
distance of `(x, y)`: the result of the `tree.query_ball_point` call in
`deduplicate_circles_kdtree` (the KD-tree is built over all input centers,
indexed by input position). -/
def ballIndices (all : List (ℕ × Circ)) (d : ℤ) (x y : ℤ) : List ℕ :=
  (all.filter fun ic => withinDedup d (x, y) (ic.2.1, ic.2.2.1)).map Prod.fst

/-- Embeds the main loop of `deduplicate_circles_kdtree`: iterate the indexed
candidates in input order, skip a candidate whose index is already in `used`,
otherwise emit it as a `DetectedCircle` (with the given color and the default
confidence) and add every index within `dedup_distance` of its center to
`used`. -/
def dedupGo (all : List (ℕ × Circ)) (color : RGB) (d : ℤ) :
    List (ℕ × Circ) → List ℕ → List DetectedCircle
  | [], _ => []
  | (i, (x, y, r)) :: rest, used =>
    if i ∈ used then
      dedupGo all color d rest used
    else
      ⟨x, y, r, color, 100⟩ :: dedupGo all color d rest (used ++ ballIndices all d x y)

/-- Embeds `deduplicate_circles_kdtree(circles, color, dedup_distance)` of
convex_detector.py. -/
def deduplicate_circles_kdtree (circles : List Circ) (color : RGB) (d : ℤ) :
    List DetectedCircle :=
  dedupGo circles.enum color d circles.enum []

/-! Calibration (src/dotmatrix/calibration.py). The verifier
`verify_black_dot_detection` is abstracted as `Verifier` (see the module
docstring and claim C1): calibration only reads `black_circles_detected`,
`radius_min`, `radius_max` and `radius_mean` from its result. -/

/-- Fields of `VerificationResult` read by calibration.py. -/
structure VerifyOut where
  black_circles_detected : ℕ
  radius_min : ℤ
  radius_max : ℤ
  radius_mean : ℚ
deriving DecidableEq

/-- Abstract `verify_black_dot_detection image min_radius max_radius`
for a fixed image and fixed thresholds. -/
abbrev Verifier := ℤ → ℤ → VerifyOut

/-- Embeds the `CalibrationStep` dataclass. -/
structure CalibrationStep where
  iteration : ℕ
  parameter : String
  min_radius : ℤ
  max_radius : ℤ
  detected_count : ℕ
  target_count : ℕ
  error : ℕ
deriving DecidableEq

/-- Embeds the `CalibrationResult` dataclass (defaults as in the source). -/
structure CalibrationResult where
  optimal_min_radius : ℤ
  optimal_max_radius : ℤ
  target_count : ℕ
  final_count : ℕ
  final_error : ℕ
  iterations : ℕ
  converged : Bool
  history : List CalibrationStep := []
  message : String := ""
  detected_radius_min : ℤ := 0
  detected_radius_max : ℤ := 0
  detected_radius_mean : ℚ := 0
deriving DecidableEq

/-- Embeds `abs(count - target_count)` on Python ints. -/
def natErr (count target : ℕ) : ℕ := ((count : ℤ) - target).natAbs

/-- Embeds the `while low <= high` loop of `_binary_search_min_radius`.
The structural `fuel` argument is an upper bound on the remaining loop
iterations; `binSearchMin` supplies the exact initial interval size
`(high + 1 - low).toNat`, and each pass shrinks the interval by at least one,
so the `0` case is reached only when `low > high` — where it returns exactly
what the Python loop exit returns. Python `//` is floor division, `Int.fdiv`.
State: `(low, high, best_min, iterations, appended history)`. -/
def binSearchMinGo (v : Verifier) (target : ℕ) (fixedMax : ℤ) (iterOffset : ℕ) :
    ℕ → ℤ → ℤ → ℤ → ℕ → List CalibrationStep → ℤ × ℕ × List CalibrationStep
  | 0, _, _, best, iters, hist => (best, iters, hist)
  | fuel + 1, low, high, best, iters, hist =>
    if low ≤ high then
      let mid := Int.fdiv (low + high) 2
      let count := (v mid fixedMax).black_circles_detected
      let step : CalibrationStep :=
        ⟨iterOffset + (iters + 1), "min_radius", mid, fixedMax, count, target,
          natErr count target⟩
      if target ≤ count then
        binSearchMinGo v target fixedMax iterOffset fuel (mid + 1) high mid (iters + 1)
          (hist ++ [step])
      else
        binSearchMinGo v target fixedMax iterOffset fuel low (mid - 1) best (iters + 1)
          (hist ++ [step])
    else (best, iters, hist)

/-- Embeds `_binary_search_min_radius(image, target, low, high, fixed_max, ...)`:
largest `min_radius` in `[low, high]` still detecting `target` circles.
Returns `(best_min, iterations, steps appended to history)`. -/
def binSearchMin (v : Verifier) (target : ℕ) (low high fixedMax : ℤ) (iterOffset : ℕ) :
    ℤ × ℕ × List CalibrationStep :=
  binSearchMinGo v target fixedMax iterOffset (high + 1 - low).toNat low high low 0 []

/-- Embeds the `while low <= high` loop of `_binary_search_max_radius`
(same fuel discipline as `binSearchMinGo`). -/
def binSearchMaxGo (v : Verifier) (target : ℕ) (fixedMin : ℤ) (iterOffset : ℕ) :
    ℕ → ℤ → ℤ → ℤ → ℕ → List CalibrationStep → ℤ × ℕ × List CalibrationStep
  | 0, _, _, best, iters, hist => (best, iters, hist)
  | fuel + 1, low, high, best, iters, hist =>
    if low ≤ high then
      let mid := Int.fdiv (low + high) 2
      let count := (v fixedMin mid).black_circles_detected
      let step : CalibrationStep :=
        ⟨iterOffset + (iters + 1), "max_radius", fixedMin, mid, count, target,
          natErr count target⟩
      if target ≤ count then
        binSearchMaxGo v target fixedMin iterOffset fuel low (mid - 1) mid (iters + 1)
          (hist ++ [step])
      else
        binSearchMaxGo v target fixedMin iterOffset fuel (mid + 1) high best (iters + 1)
          (hist ++ [step])
    else (best, iters, hist)

/-- Embeds `_binary_search_max_radius(image, target, low, high, fixed_min, ...)`:
smallest `max_radius` in `[low, high]` still detecting `target` circles. -/
def binSearchMax (v : Verifier) (target : ℕ) (low high fixedMin : ℤ) (iterOffset : ℕ) :
    ℤ × ℕ × List CalibrationStep :=
  binSearchMaxGo v target fixedMin iterOffset (high + 1 - low).toNat low high high 0 []

/-- Embeds `calibrate_radius(image, initial_min, initial_max, ...)` of
calibration.py, with the verifier abstracted (the thresholds are fixed
inside `v`; `max_iterations` and `target_mean_radius` are unused in the
source). -/
def calibrate_radius (v : Verifier) (initial_min initial_max : ℤ) : CalibrationResult :=
  let verification := v initial_min initial_max
  let target_count := verification.black_circles_detected
  if target_count = 0 then
    { optimal_min_radius := initial_min
      optimal_max_radius := initial_max
      target_count := 0
      final_count := 0
      final_error := 0
      iterations := 0
      converged := false
      history := []
      message := "No black circles detected. Cannot calibrate without ground truth." }
  else
    let baseline_step : CalibrationStep :=
      ⟨0, "baseline", initial_min, initial_max, target_count, target_count, 0⟩
    let detected_min_r := verification.radius_min
    let detected_max_r := verification.radius_max
    let detected_mean_r := verification.radius_mean
    let minRes := binSearchMin v target_count initial_min detected_min_r initial_max 1
    let optimal_min := minRes.1
    let min_iters := minRes.2.1
    let maxRes := binSearchMax v target_count detected_max_r initial_max optimal_min
      (1 + min_iters)
    let optimal_max := maxRes.1
    let max_iters := maxRes.2.1
    let final_verification := v optimal_min optimal_max
    let final_count := final_verification.black_circles_detected
    let final_error := natErr final_count target_count
    let total_iterations := 1 + min_iters + max_iters
    let converged := decide (final_error = 0)
    let message :=
      if converged then
        "Calibration complete. Found tightest bounds [" ++ toString optimal_min ++ ", "
          ++ toString optimal_max ++ "] for " ++ toString target_count ++ " circles."
      else
        "Warning: Final count " ++ toString final_count ++ " differs from target "
          ++ toString target_count ++ "."
    { optimal_min_radius := optimal_min
      optimal_max_radius := optimal_max
      target_count := target_count
      final_count := final_count
      final_error := final_error
      iterations := total_iterations
      converged := converged
      history := [baseline_step] ++ minRes.2.2 ++ maxRes.2.2
      message := message
      detected_radius_min := detected_min_r
      detected_radius_max := detected_max_r
      detected_radius_mean := detected_mean_r }

/-! Convex-edge detection (src/dotmatrix/convex_detector.py). The cv2
primitives are black boxes (spec section 6); their outputs for one color mask
are a `CVPrims` value. Everything computed from them is embedded literally. -/

/-- Per-blob outputs of the cv2 primitives used by
`detect_circles_from_convex_edges`: the blob's `CC_STAT_AREA`, the
`findContours` result, `len(convexHull(contour))`, and the
`convexityDefects` rows `(start, end, farthest, depth*256)` —
`none` covers both `cv2.error` and a `None` result, which the source treats
identically (fall back to all contour points). -/
structure BlobData where
  area : ℕ
  contours : List (List (ℤ × ℤ))
  hullSize : ℕ
  defects : Option (List (ℕ × ℕ × ℕ × ℤ))

/-- Primitive outputs for one color mask: the connected components (labels
`1..num_labels-1`, in label order) and the `cv2.HoughCircles` result as a
function of the rendered convex points and the radius bounds / sensitivity
(the Gaussian blur and the point rendering are part of this black box). -/
structure CVPrims where
  components : List BlobData
  hough : List (ℤ × ℤ) → ℤ → ℤ → Bool → List (ℚ × ℚ × ℚ)

/-- Keyword parameters of `detect_circles_from_convex_edges`, with the
source's defaults (`morphological_enhance` only changes the mask handed to
the primitives, so it lives inside `CVPrims`). -/
structure DetectParams where
  min_radius : ℤ := 80
  max_radius : ℤ := 350
  min_blob_area : ℕ := 1000
  defect_depth_threshold : ℤ := 5
  non_convex_margin : ℕ := 20
  dedup_distance : ℤ := 20
  min_convex_points : ℕ := 20
  sensitive_mode : Bool := false

/-- Embeds the defect-marking loop: contour point `idx` is marked non-convex
when some defect row `(s, e, f, dep)` has pixel depth `dep / 256.0` above the
threshold (for integers exactly `256 * threshold < dep`) and
`max(0, s - margin) ≤ idx < min(len(contour), e + margin)` (natural
subtraction is the `max(0, ·)`). The survivors, in contour order, are the
convex point set. -/
def convexPointsOf (contour : List (ℤ × ℤ)) (defects : List (ℕ × ℕ × ℕ × ℤ))
    (depthThreshold : ℤ) (margin : ℕ) : List (ℤ × ℤ) :=
  let nonConvex : ℕ → Bool := fun idx =>
    defects.any fun df =>
      decide (256 * depthThreshold < df.2.2.2) && decide (df.1 - margin ≤ idx)
        && decide (idx < min contour.length (df.2.1 + margin))
  ((contour.enum.filter fun e => ! nonConvex e.1).map Prod.snd)

/-- Exact rational value of the IEEE-754 double `np.pi`. -/
def piQ : ℚ := 884279719003555 / 281474976710656

/-- Embeds `abs(np.sqrt((px-cx)**2 + (py-cy)**2) - r) < 10` with the square
root eliminated algebraically: for `d² ≥ 0` this is
`0 < r + 10 ∧ d² < (r+10)² ∧ (r < 10 ∨ (r-10)² < d²)`. -/
def houghMatch (p : ℤ × ℤ) (c : ℚ × ℚ × ℚ) : Bool :=
  let d2 : ℚ := ((p.1 : ℚ) - c.1) ^ 2 + ((p.2 : ℚ) - c.2.1) ^ 2
  let r := c.2.2
  decide (0 < r + 10) && decide (d2 < (r + 10) ^ 2)
    && (decide (r < 10) || decide ((r - 10) ^ 2 < d2))

/-- Embeds the per-candidate score: the number of convex points within 10
pixels of the circle edge, normalized by
`max(2 * np.pi * r * 0.3, 1)` (expected visible arc length). -/
def circleScore (pts : List (ℤ × ℤ)) (c : ℚ × ℚ × ℚ) : ℚ :=
  ((pts.filter fun p => houghMatch p c).length : ℚ) / max (2 * piQ * c.2.2 * (3 / 10)) 1

/-- Embeds Python `int()` on a float: truncation toward zero. -/
def ratTrunc (q : ℚ) : ℤ := if 0 ≤ q then ⌊q⌋ else ⌈q⌉

/-- Embeds the best-circle selection loop over the HoughCircles candidates:
start from `best_circle = None, best_score = -1`, keep a candidate exactly
when its normalized score strictly beats the best so far (ties keep the
earlier candidate). -/
def selectBestCircle (pts : List (ℤ × ℤ)) (cands : List (ℚ × ℚ × ℚ)) : Option Circ :=
  (cands.foldl
    (fun acc c =>
      let ns := circleScore pts c
      if acc.2 < ns then (some (ratTrunc c.1, ratTrunc c.2.1, ratTrunc c.2.2), ns) else acc)
    ((none : Option Circ), (-1 : ℚ))).1

/-- Embeds the body of the per-blob loop of
`detect_circles_from_convex_edges`: area filter, first contour, contour-size
filter, hull/defect fallback and convex-point extraction, minimum
convex-point filter, HoughCircles, best-circle selection. Returns the blob's
contribution to `candidate_circles`. -/
def blobCandidate (P : DetectParams)
    (hough : List (ℤ × ℤ) → ℤ → ℤ → Bool → List (ℚ × ℚ × ℚ)) (b : BlobData) :
    Option Circ :=
  if b.area < P.min_blob_area then none
  else
    match b.contours with
    | [] => none
    | contour :: _ =>
      if contour.length < 5 then none
      else
        let convex_points :=
          if b.hullSize < 4 then contour
          else
            match b.defects with
            | none => contour
            | some defects =>
              convexPointsOf contour defects P.defect_depth_threshold P.non_convex_margin
        if convex_points.length < P.min_convex_points then none
        else
          selectBestCircle convex_points
            (hough convex_points P.min_radius P.max_radius P.sensitive_mode)

/-- Embeds the `candidate_circles` accumulation of
`detect_circles_from_convex_edges` (append the best circle of each blob that
yields one, in blob order). -/
def candidateCircles (prims : CVPrims) (P : DetectParams) : List Circ :=
  prims.components.foldl
    (fun acc b =>
      match blobCandidate P prims.hough b with
      | none => acc
      | some c => acc ++ [c])
    []

/-- Embeds `detect_circles_from_convex_edges(color_mask, color, ...)`:
candidate collection followed by KD-tree deduplication. -/
def detect_circles_from_convex_edges (prims : CVPrims) (color : RGB) (P : DetectParams) :
    List DetectedCircle :=
  deduplicate_circles_kdtree (candidateCircles prims P) color P.dedup_distance

/-- Embeds `detect_all_circles(image, palette, ...)` (the circles component;
the returned quantized image is not modeled): run the single-color detector
for each palette color, skipping the background color when requested, and
concatenate in palette order. `prims color` is the primitive output for the
mask of `color` in the quantized image. -/
def detect_all_circles (prims : RGB → CVPrims) (palette : List RGB) (P : DetectParams)
    (exclude_background : Bool) : List DetectedCircle :=
  let start_idx := if exclude_background then 1 else 0
  (palette.drop start_idx).flatMap fun color =>
    detect_circles_from_convex_edges (prims color) color P

/-! Tiling (src/dotmatrix/convex_detector.py, `generate_tiles` and
`process_chunked`). -/

/-- Embeds Python `range(0, stop, step)` for `step ≥ 1`. -/
def pyRange (stop step : ℕ) : List ℕ :=
  (List.range ((stop + step - 1) / step)).map (· * step)

/-- Embeds `generate_tiles(image_shape, chunk_size, overlap)`:
`step = max(1, chunk_size - overlap)`; for `y` then `x` over
`range(0, h, step)` / `range(0, w, step)` emit
`(x, y, min(x + chunk_size, w), min(y + chunk_size, h))`. -/
def generate_tiles (h w : ℕ) (chunk_size overlap : ℤ) : List (ℤ × ℤ × ℤ × ℤ) :=
  let step := max 1 (chunk_size - overlap)
  (pyRange h step.toNat).flatMap fun (y : ℕ) =>
    (pyRange w step.toNat).map fun (x : ℕ) =>
      ((x : ℤ), (y : ℤ), min ((x : ℤ) + chunk_size) (w : ℤ), min ((y : ℤ) + chunk_size) (h : ℤ))

/-- Image-level primitive outputs for `process_chunked`: the image size,
the per-color primitives for the whole image, and the per-color primitives
for each extracted tile. -/
structure ChunkPrims where
  h : ℕ
  w : ℕ
  wholePrims : RGB → CVPrims
  tilePrims : ℤ × ℤ × ℤ × ℤ → RGB → CVPrims

/-- Embeds `process_chunked(image, palette, chunk_size, max_radius,
min_radius, ...)`: `overlap = max_radius * 2`, raise `chunk_size` to
`overlap * 3` if smaller, generate tiles; with a single tile run
`detect_all_circles` directly; otherwise detect per tile, offset each circle
by the tile origin (preserving its confidence), group by color in first-seen
order (Python dict insertion order), and deduplicate each color group with
`dedup_distance = max_radius // 2`. -/
def process_chunked (inp : ChunkPrims) (palette : List RGB) (chunk_size : ℤ)
    (P : DetectParams) (exclude_background : Bool) : List DetectedCircle :=
  let overlap := P.max_radius * 2
  let min_chunk_size := overlap * 3
  let chunk := if chunk_size < min_chunk_size then min_chunk_size else chunk_size
  let tiles := generate_tiles inp.h inp.w chunk overlap
  if tiles.length = 1 then
    detect_all_circles inp.wholePrims palette P exclude_background
  else
    let all_circles := tiles.flatMap fun t =>
      (detect_all_circles (inp.tilePrims t) palette P exclude_background).map fun c =>
        { c with x := c.x + t.1, y := c.y + t.2.1 }
    let colors := all_circles.foldl
      (fun acc c => if c.color ∈ acc then acc else acc ++ [c.color]) []
    let dd := Int.fdiv P.max_radius 2
    colors.flatMap fun col =>
      deduplicate_circles_kdtree
        ((all_circles.filter fun c => c.color = col).map fun c => (c.x, c.y, c.radius))
        col dd

/-! Palette parsing (src/dotmatrix/convex_detector.py, `parse_palette`).
Raised `ValueError`s are embedded as `Except.error`. -/

/-- Embeds the `PALETTES` preset dictionary. -/
def PALETTES : List (String × List RGB) :=
  [("cmyk", [(255, 255, 255), (0, 0, 0), (118, 193, 241), (217, 93, 155), (238, 206, 94)]),
   ("rgb", [(255, 255, 255), (0, 0, 0), (255, 0, 0), (0, 255, 0), (0, 0, 255)]),
   ("grayscale", [(255, 255, 255), (0, 0, 0), (128, 128, 128)])]

/-- Python `str.split` with a one-character separator, structurally on the
character list (`String.splitOn` itself is not kernel-reducible). -/
def splitOnChar (sep : Char) : List Char → List (List Char)
  | [] => [[]]
  | c :: rest =>
    if c = sep then [] :: splitOnChar sep rest
    else
      match splitOnChar sep rest with
      | [] => [[c]]
      | h :: t => (c :: h) :: t

/-- Python `str.strip()`: drop whitespace from both ends. -/
def pyStrip (l : List Char) : List Char :=
  ((l.dropWhile Char.isWhitespace).reverse.dropWhile Char.isWhitespace).reverse

/-- Value of a nonempty all-digit character list. -/
def digitsVal (ds : List Char) : Option ℕ :=
  if ds = [] then none
  else if ds.all Char.isDigit then
    some (ds.foldl (fun acc c => acc * 10 + (c.toNat - 48)) 0)
  else none

/-- Python `int(s)` on a string: optional surrounding whitespace, optional
sign, decimal digits. -/
def pyIntChars (l : List Char) : Option ℤ :=
  match pyStrip l with
  | '-' :: ds => (digitsVal ds).map fun n => -(n : ℤ)
  | '+' :: ds => (digitsVal ds).map fun n => (n : ℤ)
  | ds => (digitsVal ds).map fun n => (n : ℤ)

/-- Embeds `int(part)` raising `ValueError` on a non-numeric string. -/
def pyInt (s : List Char) : Except String ℤ :=
  match pyIntChars s with
  | some n => Except.ok n
  | none => Except.error ("invalid literal for int() with base 10: " ++ String.mk s)

/-- Embeds one pass of the `for color_str in palette_spec.split(";")` loop
body of `parse_palette`: strip, split on commas, require three components,
parse ints, check the 0-255 range. -/
def parseColorStr (s : List Char) : Except String RGB :=
  match splitOnChar ',' (pyStrip s) with
  | [ra, ga, ba] => do
    let r ← pyInt ra
    let g ← pyInt ga
    let b ← pyInt ba
    if 0 ≤ r ∧ r ≤ 255 ∧ 0 ≤ g ∧ g ≤ 255 ∧ 0 ≤ b ∧ b ≤ 255 then
      Except.ok (r, g, b)
    else
      Except.error ("RGB values must be 0-255: " ++ String.mk s)
  | _ => Except.error ("Invalid color format: " ++ String.mk s)

/-- Embeds `parse_palette(palette_spec)`: a preset name (lowercased) returns
its preset; otherwise white is prepended and each semicolon-separated color
is parsed, any inner `ValueError` being re-raised wrapped in
`Invalid palette specification`. -/
def parse_palette (palette_spec : String) : Except String (List RGB) :=
  match PALETTES.find? fun kv => kv.1.data == palette_spec.data.map Char.toLower with
  | some kv => Except.ok kv.2
  | none =>
    match (splitOnChar ';' palette_spec.data).mapM parseColorStr with
    | Except.ok colors => Except.ok ((255, 255, 255) :: colors)
    | Except.error e =>
      Except.error ("Invalid palette specification: " ++ palette_spec
        ++ ". Use preset name (cmyk, rgb) or R,G,B;R,G,B format. Error: " ++ e)

/-! Module import model (claim C1). `black_verification.py` does
`from .convex_detector import separate_cmyk_inks,
detect_circles_from_convex_edges, CMYK_INK_COLORS`; Python resolves each
name against the top-level bindings of the imported module and raises
`ImportError` for a missing one, so the module fails to load. -/

/-- Top-level bindings of the module `dotmatrix.convex_detector`
(its `from`-imports followed by every top-level definition of
convex_detector.py, in source order). -/
def convexDetectorModuleNames : List String :=
  ["dataclass", "List", "Tuple", "Dict", "Optional", "np", "cv2", "KDTree",
   "PALETTES", "DetectedCircle", "parse_palette", "quantize_to_palette",
   "filter_by_color", "deduplicate_circles_kdtree",
   "apply_morphological_enhancement", "detect_circles_from_convex_edges",
   "detect_all_circles", "get_color_name", "RadiusCalibration",
   "calculate_radius_statistics", "calibrate_radius_from_reference",
   "select_reference_color", "detect_with_calibration", "generate_tiles",
   "calculate_chunk_size", "process_chunked"]

/-- Embeds `from module import names`: the first requested name missing from
the module's bindings raises `ImportError`. -/
def fromImport (exports : List String) (names : List String) : Except String Unit :=
  match names.find? fun n => ! exports.contains n with
  | some n => Except.error ("ImportError: cannot import name " ++ n)
  | none => Except.ok ()

/-- Names requested by `black_verification.py` from
`dotmatrix.convex_detector` (source order). -/
def blackVerificationImportList : List String :=
  ["separate_cmyk_inks", "detect_circles_from_convex_edges", "CMYK_INK_COLORS"]

/-- Loading `dotmatrix.black_verification` executes its from-import of the
three names above out of `dotmatrix.convex_detector`. -/
def importBlackVerification : Except String Unit :=
  fromImport convexDetectorModuleNames blackVerificationImportList

/-- Loading `dotmatrix.calibration` first loads
`dotmatrix.black_verification` (it from-imports `verify_black_dot_detection`
and `VerificationResult` from there), so a load failure propagates. -/
def importCalibration : Except String Unit :=
  match importBlackVerification with
  | Except.error e => Except.error e
  | Except.ok _ => Except.ok ()

/-! Concrete fixtures used by counterexamples and witnesses. -/

/-- Verifier that detects nothing at any bounds. -/
def zeroVerifier : Verifier := fun _ _ => ⟨0, 0, 0, 0⟩

/-- Verifier that always detects one circle of radius 1. -/
def oneVerifier : Verifier := fun _ _ => ⟨1, 1, 1, 1⟩

/-- A 20-point contour (enough for the default `min_convex_points`). -/
def exampleContour : List (ℤ × ℤ) := (List.range 20).map fun i => ((i : ℤ), 0)

/-- Primitives with a single valid blob whose Hough call always proposes the
circle `(5, 5, 5)`, whatever bounds it is given. -/
def examplePrims : CVPrims :=
  ⟨[⟨2000, [exampleContour], 3, none⟩], fun _ _ _ _ => [(5, 5, 5)]⟩

/-! ### Theorems
Helper lemmas first, then one theorem per claim (with witnesses and
counterexamples as needed). -/

/-- Every circle emitted by the dedup loop carries the requested color and
the default confidence `100.0` (the source constructs each output with
`DetectedCircle(x, y, r, color)`, leaving `confidence` at its default). -/
theorem dedupGo_color_conf (all : List (ℕ × Circ)) (color : RGB) (d : ℤ) :
    ∀ (l : List (ℕ × Circ)) (used : List ℕ),
      ∀ q ∈ dedupGo all color d l used, q.color = color ∧ q.confidence = 100 := by
  intro l
  induction l with
  | nil => intro used q hq; simp [dedupGo] at hq
  | cons e rest ih =>
    intro used q hq
    obtain ⟨i, x, y, r⟩ := e
    by_cases hi : i ∈ used
    · rw [dedupGo, if_pos hi] at hq
      exact ih _ q hq
    · rw [dedupGo, if_neg hi] at hq
      rcases List.mem_cons.mp hq with h | h
      · subst h; exact ⟨rfl, rfl⟩
      · exact ih _ q h

/-- Core invariant of the dedup loop: (a) the emitted circles are pairwise
outside the dedup distance of each other, and (b) every emitted circle is a
copy of some not-yet-consumed input candidate. -/
theorem dedupGo_sep (all : List (ℕ × Circ)) (color : RGB) (d : ℤ) :
    ∀ (l : List (ℕ × Circ)) (used : List ℕ), (∀ e ∈ l, e ∈ all) →
      ((dedupGo all color d l used).Pairwise
          (fun a b => withinDedup d (a.x, a.y) (b.x, b.y) = false)
        ∧ ∀ q ∈ dedupGo all color d l used,
            ∃ e ∈ l, e.1 ∉ used ∧ q = ⟨e.2.1, e.2.2.1, e.2.2.2, color, 100⟩) := by
  intro l
  induction l with
  | nil =>
    intro used _
    constructor
    · simp [dedupGo]
    · intro q hq; simp [dedupGo] at hq
  | cons e rest ih =>
    intro used hsub
    obtain ⟨i, x, y, r⟩ := e
    have hsub' : ∀ e ∈ rest, e ∈ all := fun e he => hsub e (List.mem_cons_of_mem _ he)
    by_cases hi : i ∈ used
    · rw [dedupGo, if_pos hi]
      refine ⟨(ih used hsub').1, ?_⟩
      intro q hq
      obtain ⟨e, he, hu, hform⟩ := (ih used hsub').2 q hq
      exact ⟨e, List.mem_cons_of_mem _ he, hu, hform⟩
    · rw [dedupGo, if_neg hi]
      have hall : ((i, (x, y, r)) : ℕ × Circ) ∈ all := hsub _ (List.mem_cons_self _ _)
      have ihx := ih (used ++ ballIndices all d x y) hsub'
      constructor
      · refine List.pairwise_cons.mpr ⟨?_, ihx.1⟩
        intro b hb
        obtain ⟨e, _, hu, hform⟩ := ihx.2 b hb
        have hnb : e.1 ∉ ballIndices all d x y := fun hmem =>
          hu (List.mem_append.mpr (Or.inr hmem))
        subst hform
        simp only [DetectedCircle.x, DetectedCircle.y]
        by_contra hcon
        rw [Bool.not_eq_false] at hcon
        exact hnb (List.mem_map.mpr ⟨e, List.mem_filter.mpr ⟨hsub' e ‹e ∈ rest›, hcon⟩, rfl⟩)
      · intro q hq
        rcases List.mem_cons.mp hq with h | h
        · exact ⟨(i, (x, y, r)), List.mem_cons_self _ _, hi, h⟩
        · obtain ⟨e, he, hu, hform⟩ := ihx.2 q h
          exact ⟨e, List.mem_cons_of_mem _ he,
            fun hmem => hu (List.mem_append.mpr (Or.inl hmem)), hform⟩

/-- When the input candidates are already pairwise outside the dedup distance
(and indices are unambiguous), the dedup loop consumes nothing and emits every
candidate unchanged, in order. -/
theorem dedupGo_of_sep (all : List (ℕ × Circ)) (color : RGB) (d : ℤ)
    (hind : ∀ e f, e ∈ all → f ∈ all → e.1 = f.1 → e = f)
    (hfar : ∀ e f, e ∈ all → f ∈ all → e.1 ≠ f.1 →
      withinDedup d (e.2.1, e.2.2.1) (f.2.1, f.2.2.1) = false) :
    ∀ (l : List (ℕ × Circ)) (used : List ℕ), (∀ e ∈ l, e ∈ all) →
      l.Pairwise (fun a b => a.1 ≠ b.1) → (∀ e ∈ l, e.1 ∉ used) →
      dedupGo all color d l used
        = l.map fun e => ⟨e.2.1, e.2.2.1, e.2.2.2, color, 100⟩ := by
  intro l
  induction l with
  | nil => intro used _ _ _; simp [dedupGo]
  | cons hd rest ih =>
    intro used hsub hpw hfree
    obtain ⟨i, x, y, r⟩ := hd
    have hi : i ∉ used := hfree _ (List.mem_cons_self _ _)
    have hhd : ((i, (x, y, r)) : ℕ × Circ) ∈ all := hsub _ (List.mem_cons_self _ _)
    rw [dedupGo, if_neg hi, List.map_cons]
    congr 1
    refine ih (used ++ ballIndices all d x y)
      (fun e he => hsub e (List.mem_cons_of_mem _ he))
      (List.pairwise_cons.mp hpw).2 ?_
    intro e he hmem
    rcases List.mem_append.mp hmem with h | h
    · exact hfree e (List.mem_cons_of_mem _ he) h
    · obtain ⟨f, hf, hfst⟩ := List.mem_map.mp h
      have hfall : f ∈ all := (List.mem_filter.mp hf).1
      have hfw : withinDedup d (x, y) (f.2.1, f.2.2.1) = true := (List.mem_filter.mp hf).2
      have hne : i ≠ e.1 := (List.pairwise_cons.mp hpw).1 e he
      have hef : f = e := hind f e hfall (hsub e (List.mem_cons_of_mem _ he)) (by rw [hfst])
      have := hfar (i, (x, y, r)) e hhd (hsub e (List.mem_cons_of_mem _ he)) hne
      rw [hef] at hfw
      simp only [this] at hfw
      exact Bool.false_ne_true hfw

/-- C1: `black_verification.py` imports `separate_cmyk_inks` and
`CMYK_INK_COLORS` from the convex_detector module, but neither name is a
top-level binding of that module (nor is it defined anywhere else in the
source), so loading `dotmatrix.black_verification` — and therefore
`dotmatrix.calibration`, and therefore any call to
`verify_black_dot_detection` or `calibrate_radius` — fails with an
ImportError instead of returning a result. -/
theorem claim_C1 :
    "separate_cmyk_inks" ∉ convexDetectorModuleNames
    ∧ "CMYK_INK_COLORS" ∉ convexDetectorModuleNames
    ∧ importBlackVerification
        = Except.error "ImportError: cannot import name separate_cmyk_inks"
    ∧ importCalibration
        = Except.error "ImportError: cannot import name separate_cmyk_inks" :=
  ⟨by decide, by decide, rfl, rfl⟩

/-- C2 counterexample: when the baseline verification detects zero reference
circles, `calibrate_radius` returns `converged = false` together with
`final_error = 0`, so the claimed invariant
`converged == (final_error == 0)` fails in that branch. -/
theorem claim_C2_counterexample :
    ¬ ((calibrate_radius zeroVerifier 1 300).converged
        = ((calibrate_radius zeroVerifier 1 300).final_error == 0)) := by
  decide

/-- C2 (amended): the equivalence `converged ↔ final_error = 0` holds
whenever the baseline verification detected at least one reference circle;
in the zero-reference branch the result instead has `converged = false`
while `final_error = 0`. -/
theorem claim_C2_amended (v : Verifier) (imin imax : ℤ) :
    (0 < (calibrate_radius v imin imax).target_count →
      ((calibrate_radius v imin imax).converged = true ↔
        (calibrate_radius v imin imax).final_error = 0))
    ∧ ((v imin imax).black_circles_detected = 0 →
        (calibrate_radius v imin imax).converged = false
          ∧ (calibrate_radius v imin imax).final_error = 0) := by
  by_cases h : (v imin imax).black_circles_detected = 0
  · constructor
    · intro hpos
      simp [calibrate_radius, h] at hpos
    · intro _
      simp [calibrate_radius, h]
  · constructor
    · intro _
      simp [calibrate_radius, h]
    · intro h0
      exact absurd h0 h

/-- Witness for C2 (amended) at a verifier that always reports one circle. -/
theorem claim_C2_amended_witness :
    (calibrate_radius oneVerifier 1 1).converged = true ↔
      (calibrate_radius oneVerifier 1 1).final_error = 0 :=
  (claim_C2_amended oneVerifier 1 1).1 (by decide)

/-- C5: when the baseline verification detects zero reference circles,
`calibrate_radius` returns (does not raise) a `CalibrationResult` with
`converged = false`, `target_count = 0`, `final_count = 0`,
`iterations = 0`, the no-ground-truth failure message, and an empty
history. -/
theorem claim_C5 (v : Verifier) (imin imax : ℤ)
    (h : (v imin imax).black_circles_detected = 0) :
    calibrate_radius v imin imax =
      { optimal_min_radius := imin
        optimal_max_radius := imax
        target_count := 0
        final_count := 0
        final_error := 0
        iterations := 0
        converged := false
        history := []
        message := "No black circles detected. Cannot calibrate without ground truth." } := by
  simp [calibrate_radius, h]

/-- Witness for C5 at the verifier that never detects anything. -/
theorem claim_C5_witness :
    (zeroVerifier 1 300).black_circles_detected = 0
    ∧ calibrate_radius zeroVerifier 1 300 =
      { optimal_min_radius := 1
        optimal_max_radius := 300
        target_count := 0
        final_count := 0
        final_error := 0
        iterations := 0
        converged := false
        history := []
        message := "No black circles detected. Cannot calibrate without ground truth." } :=
  ⟨rfl, claim_C5 zeroVerifier 1 300 rfl⟩

/-- Halving step for the ceiling log: one binary-search probe on an interval
of `n ≥ 1` integers leaves at most `n / 2` integers, and
`⌈log2 (n/2 + 1)⌉ + 1 = ⌈log2 (n + 1)⌉`. -/
theorem clog_half_step {n : ℕ} (hn : 1 ≤ n) :
    Nat.clog 2 (n / 2 + 1) + 1 ≤ Nat.clog 2 (n + 1) := by
  have h2 : Nat.clog 2 (n + 1) = Nat.clog 2 ((n + 1 + 2 - 1) / 2) + 1 :=
    Nat.clog_of_two_le (by norm_num) (by omega)
  have h3 : (n + 1 + 2 - 1) / 2 = n / 2 + 1 := by omega
  rw [h3] at h2
  omega

/-- The min-radius search loop performs at most `⌈log2 (size + 1)⌉` probes
on an interval of `size` integers (given enough fuel). -/
theorem binSearchMinGo_iters_le (v : Verifier) (target : ℕ) (fixedMax : ℤ)
    (iterOffset : ℕ) :
    ∀ (fuel : ℕ) (low high best : ℤ) (iters : ℕ) (hist : List CalibrationStep),
      (high + 1 - low).toNat ≤ fuel →
      (binSearchMinGo v target fixedMax iterOffset fuel low high best iters hist).2.1
        ≤ iters + Nat.clog 2 ((high + 1 - low).toNat + 1) := by
  intro fuel
  induction fuel with
  | zero =>
    intro low high best iters hist _
    simp [binSearchMinGo]
  | succ fuel ih =>
    intro low high best iters hist hf
    by_cases hlh : low ≤ high
    · rw [binSearchMinGo]
      simp only [if_pos hlh]
      have hmide : Int.fdiv (low + high) 2 = (low + high) / 2 :=
        Int.fdiv_eq_ediv _ (by norm_num)
      by_cases hc : target ≤ (v (Int.fdiv (low + high) 2) fixedMax).black_circles_detected
      · simp only [if_pos hc]
        have hs : (high + 1 - (Int.fdiv (low + high) 2 + 1)).toNat ≤ fuel := by
          rw [hmide]; omega
        have hrec := ih (Int.fdiv (low + high) 2 + 1) high (Int.fdiv (low + high) 2)
          (iters + 1) (hist ++ [⟨iterOffset + (iters + 1), "min_radius",
            Int.fdiv (low + high) 2, fixedMax,
            (v (Int.fdiv (low + high) 2) fixedMax).black_circles_detected, target,
            natErr (v (Int.fdiv (low + high) 2) fixedMax).black_circles_detected target⟩]) hs
        have hsz : (high + 1 - (Int.fdiv (low + high) 2 + 1)).toNat
            = (high + 1 - low).toNat / 2 := by
          rw [hmide]; omega
        have hstep := clog_half_step (n := (high + 1 - low).toNat) (by omega)
        rw [hsz] at hrec
        omega
      · simp only [if_neg hc]
        have hs : (Int.fdiv (low + high) 2 - 1 + 1 - low).toNat ≤ fuel := by
          rw [hmide]; omega
        have hrec := ih low (Int.fdiv (low + high) 2 - 1) best
          (iters + 1) (hist ++ [⟨iterOffset + (iters + 1), "min_radius",
            Int.fdiv (low + high) 2, fixedMax,
            (v (Int.fdiv (low + high) 2) fixedMax).black_circles_detected, target,
            natErr (v (Int.fdiv (low + high) 2) fixedMax).black_circles_detected target⟩]) hs
        have hsz : (Int.fdiv (low + high) 2 - 1 + 1 - low).toNat
            ≤ (high + 1 - low).toNat / 2 := by
          rw [hmide]; omega
        have hmono := Nat.clog_mono_right 2
          (Nat.add_le_add_right hsz 1)
        have hstep := clog_half_step (n := (high + 1 - low).toNat) (by omega)
        omega
    · rw [binSearchMinGo]
      simp [if_neg hlh]

/-- The max-radius search loop performs at most `⌈log2 (size + 1)⌉` probes
on an interval of `size` integers (given enough fuel). -/
theorem binSearchMaxGo_iters_le (v : Verifier) (target : ℕ) (fixedMin : ℤ)
    (iterOffset : ℕ) :
    ∀ (fuel : ℕ) (low high best : ℤ) (iters : ℕ) (hist : List CalibrationStep),
      (high + 1 - low).toNat ≤ fuel →
      (binSearchMaxGo v target fixedMin iterOffset fuel low high best iters hist).2.1
        ≤ iters + Nat.clog 2 ((high + 1 - low).toNat + 1) := by
  intro fuel
  induction fuel with
  | zero =>
    intro low high best iters hist _
    simp [binSearchMaxGo]
  | succ fuel ih =>
    intro low high best iters hist hf
    by_cases hlh : low ≤ high
    · rw [binSearchMaxGo]
      simp only [if_pos hlh]
      have hmide : Int.fdiv (low + high) 2 = (low + high) / 2 :=
        Int.fdiv_eq_ediv _ (by norm_num)
      by_cases hc : target ≤ (v fixedMin (Int.fdiv (low + high) 2)).black_circles_detected
      · simp only [if_pos hc]
        have hs : (Int.fdiv (low + high) 2 - 1 + 1 - low).toNat ≤ fuel := by
          rw [hmide]; omega
        have hrec := ih low (Int.fdiv (low + high) 2 - 1) (Int.fdiv (low + high) 2)
          (iters + 1) (hist ++ [⟨iterOffset + (iters + 1), "max_radius", fixedMin,
            Int.fdiv (low + high) 2,
            (v fixedMin (Int.fdiv (low + high) 2)).black_circles_detected, target,
            natErr (v fixedMin (Int.fdiv (low + high) 2)).black_circles_detected target⟩]) hs
        have hsz : (Int.fdiv (low + high) 2 - 1 + 1 - low).toNat
            ≤ (high + 1 - low).toNat / 2 := by
          rw [hmide]; omega
        have hmono := Nat.clog_mono_right 2 (Nat.add_le_add_right hsz 1)
        have hstep := clog_half_step (n := (high + 1 - low).toNat) (by omega)
        omega
      · simp only [if_neg hc]
        have hs : (high + 1 - (Int.fdiv (low + high) 2 + 1)).toNat ≤ fuel := by
          rw [hmide]; omega
        have hrec := ih (Int.fdiv (low + high) 2 + 1) high best
          (iters + 1) (hist ++ [⟨iterOffset + (iters + 1), "max_radius", fixedMin,
            Int.fdiv (low + high) 2,
            (v fixedMin (Int.fdiv (low + high) 2)).black_circles_detected, target,
            natErr (v fixedMin (Int.fdiv (low + high) 2)).black_circles_detected target⟩]) hs
        have hsz : (high + 1 - (Int.fdiv (low + high) 2 + 1)).toNat
            = (high + 1 - low).toNat / 2 := by
          rw [hmide]; omega
        have hstep := clog_half_step (n := (high + 1 - low).toNat) (by omega)
        rw [hsz] at hrec
        omega
    · rw [binSearchMaxGo]
      simp [if_neg hlh]

/-- Probe count of `_binary_search_min_radius` on `[low, high]`. -/
theorem binSearchMin_iters_le (v : Verifier) (target : ℕ) (low high fixedMax : ℤ)
    (iterOffset : ℕ) :
    (binSearchMin v target low high fixedMax iterOffset).2.1
      ≤ Nat.clog 2 ((high + 1 - low).toNat + 1) := by
  have := binSearchMinGo_iters_le v target fixedMax iterOffset
    (high + 1 - low).toNat low high low 0 [] le_rfl
  simpa [binSearchMin] using this

/-- Probe count of `_binary_search_max_radius` on `[low, high]`. -/
theorem binSearchMax_iters_le (v : Verifier) (target : ℕ) (low high fixedMin : ℤ)
    (iterOffset : ℕ) :
    (binSearchMax v target low high fixedMin iterOffset).2.1
      ≤ Nat.clog 2 ((high + 1 - low).toNat + 1) := by
  have := binSearchMaxGo_iters_le v target fixedMin iterOffset
    (high + 1 - low).toNat low high high 0 [] le_rfl
  simpa [binSearchMax] using this

/-- C8 counterexample: with a verifier that always reports one circle of
radius 1 and initial bounds `[1, 1]`, both binary-search intervals
(`[initial_min, detected_radius_min]` and
`[detected_radius_max, initial_max]`) contain exactly one integer, yet each
search still probes once, so `iterations = 3` exceeds the claimed bound
`1 + ⌈log2 1⌉ + ⌈log2 1⌉ = 1`. -/
theorem claim_C8_counterexample :
    ¬ ((calibrate_radius oneVerifier 1 1).iterations
        ≤ 1
          + Nat.clog 2 ((calibrate_radius oneVerifier 1 1).detected_radius_min + 1 - 1).toNat
          + Nat.clog 2 (1 + 1 - (calibrate_radius oneVerifier 1 1).detected_radius_max).toNat) := by
  have h1 : (calibrate_radius oneVerifier 1 1).iterations = 3 := by decide
  have h2 : (calibrate_radius oneVerifier 1 1).detected_radius_min = 1 := by decide
  have h3 : (calibrate_radius oneVerifier 1 1).detected_radius_max = 1 := by decide
  rw [h1, h2, h3]
  have h4 : ((1 : ℤ) + 1 - 1).toNat = 1 := by decide
  rw [h4, Nat.clog_one_right]
  decide

/-- C8 (amended): whenever the baseline count is nonzero, the `iterations`
field of the result is at most
`1 + ⌈log2 (range_min + 1)⌉ + ⌈log2 (range_max + 1)⌉`, where `range_min`
and `range_max` are the numbers of integers in the two binary-search
intervals `[initial_min, detected_radius_min]` and
`[detected_radius_max, initial_max]` — independent of image size. -/
theorem claim_C8_amended (v : Verifier) (imin imax : ℤ)
    (h : (v imin imax).black_circles_detected ≠ 0) :
    (calibrate_radius v imin imax).iterations
      ≤ 1 + Nat.clog 2 (((v imin imax).radius_min + 1 - imin).toNat + 1)
        + Nat.clog 2 ((imax + 1 - (v imin imax).radius_max).toNat + 1) := by
  simp only [calibrate_radius, h, if_false, if_neg]
  gcongr
  · exact binSearchMin_iters_le v _ imin (v imin imax).radius_min imax 1
  · exact binSearchMax_iters_le v _ (v imin imax).radius_max imax _ _

/-- Witness for C8 (amended): at the one-circle verifier with bounds `[1, 1]`
the result has 3 iterations and the amended bound is
`1 + ⌈log2 2⌉ + ⌈log2 2⌉ = 3`. -/
theorem claim_C8_amended_witness :
    (oneVerifier 1 1).black_circles_detected ≠ 0
    ∧ (calibrate_radius oneVerifier 1 1).iterations
        ≤ 1 + Nat.clog 2 (((oneVerifier 1 1).radius_min + 1 - 1).toNat + 1)
          + Nat.clog 2 ((1 + 1 - (oneVerifier 1 1).radius_max).toNat + 1) :=
  ⟨by decide, claim_C8_amended oneVerifier 1 1 (by decide)⟩

/-- The dedup proximity test is symmetric in the two centers. -/
theorem withinDedup_symm (d : ℤ) (p q : ℤ × ℤ) : withinDedup d p q = withinDedup d q p := by
  unfold withinDedup
  have h : (p.1 - q.1) ^ 2 + (p.2 - q.2) ^ 2 = (q.1 - p.1) ^ 2 + (q.2 - p.2) ^ 2 := by ring
  rw [h]

/-- C4: for any dedup distance `d`, any two distinct circles in the output
of `deduplicate_circles_kdtree` have centers at Euclidean distance strictly
greater than `d` (stated with squared distance; a pair at distance exactly
`d` is consumed as a duplicate, and for `d < 0` the strict inequality is
immediate since distances are nonnegative). -/
theorem claim_C4 (circles : List Circ) (color : RGB) (d : ℤ) :
    (deduplicate_circles_kdtree circles color d).Pairwise
      (fun a b => d < 0 ∨ d ^ 2 < (a.x - b.x) ^ 2 + (a.y - b.y) ^ 2) := by
  have h := (dedupGo_sep circles.enum color d circles.enum [] (fun _ he => he)).1
  refine h.imp ?_
  intro a b hfalse
  by_contra hcon
  push_neg at hcon
  simp [withinDedup, hcon.1, hcon.2] at hfalse

/-- C3: the spatial deduplicator is idempotent — running
`deduplicate_circles_kdtree` on the `(x, y, radius)` projection of its own
output, with the same color and dedup distance, returns the same list of
circles in the same order. -/
theorem claim_C3 (circles : List Circ) (color : RGB) (d : ℤ) :
    deduplicate_circles_kdtree
      ((deduplicate_circles_kdtree circles color d).map fun q => (q.x, q.y, q.radius))
      color d
      = deduplicate_circles_kdtree circles color d := by
  set ys := deduplicate_circles_kdtree circles color d with hys
  set l : List Circ := ys.map (fun q => (q.x, q.y, q.radius)) with hl
  have hfar : ys.Pairwise (fun a b => withinDedup d (a.x, a.y) (b.x, b.y) = false) :=
    (dedupGo_sep circles.enum color d circles.enum [] (fun _ he => he)).1
  have hcc : ∀ q ∈ ys, q.color = color ∧ q.confidence = 100 :=
    dedupGo_color_conf circles.enum color d circles.enum []
  have hlen : l.length = ys.length := List.length_map ys _
  have hfarIdx : ∀ (i j : ℕ) (hi : i < ys.length) (hj : j < ys.length), i ≠ j →
      withinDedup d (ys[i].x, ys[i].y) (ys[j].x, ys[j].y) = false := by
    intro i j hi hj hne
    rcases Nat.lt_or_ge i j with hij | hij
    · exact List.pairwise_iff_getElem.mp hfar i j hi hj hij
    · have hji : j < i := lt_of_le_of_ne hij (Ne.symm hne)
      rw [withinDedup_symm]
      exact List.pairwise_iff_getElem.mp hfar j i hj hi hji
  have hentry : ∀ e : ℕ × Circ, e ∈ l.enum →
      ∃ he : e.1 < ys.length, e.2 = (ys[e.1].x, ys[e.1].y, ys[e.1].radius) := by
    intro e he
    have h1 : l[e.1]? = some e.2 := List.mem_enum_iff_getElem?.mp he
    obtain ⟨hlt, hget⟩ := List.getElem?_eq_some_iff.mp h1
    refine ⟨by omega, ?_⟩
    rw [← hget]
    simp only [hl, List.getElem_map]
  have hind : ∀ e f : ℕ × Circ, e ∈ l.enum → f ∈ l.enum → e.1 = f.1 → e = f := by
    intro e f he hf hef
    have h1 : l[e.1]? = some e.2 := List.mem_enum_iff_getElem?.mp he
    have h2 : l[f.1]? = some f.2 := List.mem_enum_iff_getElem?.mp hf
    rw [hef] at h1
    rw [h1] at h2
    exact Prod.ext hef (Option.some_injective _ h2)
  have hfarEnum : ∀ e f : ℕ × Circ, e ∈ l.enum → f ∈ l.enum → e.1 ≠ f.1 →
      withinDedup d (e.2.1, e.2.2.1) (f.2.1, f.2.2.1) = false := by
    intro e f he hf hne
    obtain ⟨hie, hge⟩ := hentry e he
    obtain ⟨hif, hgf⟩ := hentry f hf
    rw [hge, hgf]
    exact hfarIdx e.1 f.1 hie hif hne
  have hpwfst : l.enum.Pairwise fun a b => a.1 ≠ b.1 := by
    refine List.pairwise_iff_getElem.mpr ?_
    intro i j hi hj hij
    rw [List.getElem_enum, List.getElem_enum]
    omega
  have hres := dedupGo_of_sep l.enum color d hind hfarEnum l.enum []
    (fun _ he => he) hpwfst (by simp)
  show dedupGo l.enum color d l.enum [] = ys
  rw [hres]
  refine List.ext_getElem (by simp [hlen]) ?_
  intro k hk1 hk2
  have hkl : k < l.enum.length := by simpa using hk1
  have hky : k < ys.length := by
    have := hkl
    simp only [List.enum_length, hlen] at this
    exact this
  rw [List.getElem_map, List.getElem_enum]
  have hlk : l[k] = (ys[k].x, ys[k].y, ys[k].radius) := by
    simp only [hl, List.getElem_map]
  have hq := hcc ys[k] (List.getElem_mem hky)
  simp only [hlk]
  have hrec : (ys[k] : DetectedCircle)
      = ⟨ys[k].x, ys[k].y, ys[k].radius, ys[k].color, ys[k].confidence⟩ := rfl
  rw [hrec, hq.1, hq.2]

/-- The normalized coverage score is nonnegative: the match count is a
natural number and the normalizing denominator is at least 1. -/
theorem circleScore_nonneg (pts : List (ℤ × ℤ)) (c : ℚ × ℚ × ℚ) :
    0 ≤ circleScore pts c := by
  unfold circleScore
  exact div_nonneg (Nat.cast_nonneg _) (le_trans zero_le_one (le_max_right _ 1))

/-- Once the selection fold holds a circle, it holds one forever. -/
theorem selectFold_keeps_some (pts : List (ℤ × ℤ)) :
    ∀ (cands : List (ℚ × ℚ × ℚ)) (acc : Option Circ × ℚ), acc.1.isSome →
      ((cands.foldl
        (fun acc c =>
          let ns := circleScore pts c
          if acc.2 < ns then (some (ratTrunc c.1, ratTrunc c.2.1, ratTrunc c.2.2), ns) else acc)
        acc).1).isSome := by
  intro cands
  induction cands with
  | nil => intro acc h; simpa using h
  | cons c rest ih =>
    intro acc h
    rw [List.foldl_cons]
    by_cases hlt : acc.2 < circleScore pts c
    · exact ih _ (by simp [hlt])
    · exact ih _ (by simp [hlt, h])

/-- The per-blob selection returns a circle exactly when the circle-voting
primitive returned at least one candidate: scores are nonnegative, so the
first candidate always beats the initial best score of `-1`. -/
theorem selectBestCircle_isSome (pts : List (ℤ × ℤ)) (cands : List (ℚ × ℚ × ℚ)) :
    (selectBestCircle pts cands).isSome ↔ cands ≠ [] := by
  constructor
  · intro h hnil
    subst hnil
    simp [selectBestCircle] at h
  · intro hne
    obtain ⟨c, rest, rfl⟩ := List.exists_cons_of_ne_nil hne
    unfold selectBestCircle
    rw [List.foldl_cons]
    have h0 : ((none : Option Circ), (-1 : ℚ)).2 < circleScore pts c :=
      lt_of_lt_of_le (by norm_num) (circleScore_nonneg pts c)
    refine selectFold_keeps_some pts rest _ ?_
    simp [h0]

/-- The candidate accumulation loop is the concatenation of the per-blob
contributions, in blob order. -/
theorem candidateCircles_eq_flatMap (prims : CVPrims) (P : DetectParams) :
    candidateCircles prims P
      = prims.components.flatMap fun b => (blobCandidate P prims.hough b).toList := by
  suffices h : ∀ (l : List BlobData) (acc : List Circ),
      l.foldl
        (fun acc b =>
          match blobCandidate P prims.hough b with
          | none => acc
          | some c => acc ++ [c])
        acc
      = acc ++ l.flatMap (fun b => (blobCandidate P prims.hough b).toList) by
    simpa [candidateCircles] using h prims.components []
  intro l
  induction l with
  | nil => intro acc; simp
  | cons b rest ih =>
    intro acc
    rw [List.foldl_cons, List.flatMap_cons]
    cases hb : blobCandidate P prims.hough b
    · simp only [hb, ih, Option.toList_none, List.nil_append]
    · simp only [hb, ih, Option.toList_some, List.cons_append, List.nil_append,
        List.append_assoc, List.singleton_append]

/-- C9: every blob contributes its single best-scoring voting candidate or
nothing to the candidate list of `detect_circles_from_convex_edges` — the
list is the concatenation of per-blob contributions of length at most one
(never two circles from one blob), and a blob that reaches the voting stage
contributes exactly one circle precisely when the voting primitive proposed
at least one candidate. -/
theorem claim_C9 (prims : CVPrims) (P : DetectParams) :
    (candidateCircles prims P
      = prims.components.flatMap fun b => (blobCandidate P prims.hough b).toList)
    ∧ (∀ b : BlobData, ((blobCandidate P prims.hough b).toList).length ≤ 1)
    ∧ ∀ (pts : List (ℤ × ℤ)) (cands : List (ℚ × ℚ × ℚ)),
        (selectBestCircle pts cands).isSome ↔ cands ≠ [] := by
  refine ⟨candidateCircles_eq_flatMap prims P, ?_, fun pts cands => selectBestCircle_isSome pts cands⟩
  intro b
  cases blobCandidate P prims.hough b <;> simp

/-- Every output of `deduplicate_circles_kdtree` has confidence `100`. -/
theorem dedup_confidence (circles : List Circ) (color : RGB) (d : ℤ) :
    ∀ c ∈ deduplicate_circles_kdtree circles color d, c.confidence = 100 :=
  fun c hc => (dedupGo_color_conf circles.enum color d circles.enum [] c hc).2

/-- C10: every `DetectedCircle` returned by
`detect_circles_from_convex_edges`, `detect_all_circles` and
`process_chunked` has confidence exactly `100.0` — the field is only ever
its default, preserved by the tiling offset, never computed. -/
theorem claim_C10 :
    (∀ (prims : CVPrims) (color : RGB) (P : DetectParams),
      ∀ c ∈ detect_circles_from_convex_edges prims color P, c.confidence = 100)
    ∧ (∀ (prims : RGB → CVPrims) (palette : List RGB) (P : DetectParams) (eb : Bool),
      ∀ c ∈ detect_all_circles prims palette P eb, c.confidence = 100)
    ∧ ∀ (inp : ChunkPrims) (palette : List RGB) (chunk_size : ℤ) (P : DetectParams) (eb : Bool),
      ∀ c ∈ process_chunked inp palette chunk_size P eb, c.confidence = 100 := by
  have h1 : ∀ (prims : CVPrims) (color : RGB) (P : DetectParams),
      ∀ c ∈ detect_circles_from_convex_edges prims color P, c.confidence = 100 :=
    fun prims color P c hc => dedup_confidence _ color P.dedup_distance c hc
  have h2 : ∀ (prims : RGB → CVPrims) (palette : List RGB) (P : DetectParams) (eb : Bool),
      ∀ c ∈ detect_all_circles prims palette P eb, c.confidence = 100 := by
    intro prims palette P eb c hc
    unfold detect_all_circles at hc
    obtain ⟨color, _, hc2⟩ := List.mem_flatMap.mp hc
    exact h1 _ color P c hc2
  refine ⟨h1, h2, ?_⟩
  intro inp palette chunk_size P eb c hc
  unfold process_chunked at hc
  dsimp only at hc
  split at hc <;> split at hc
  all_goals
    first
      | exact h2 _ palette P eb c hc
      | (obtain ⟨color, _, hc2⟩ := List.mem_flatMap.mp hc
         exact dedup_confidence _ color _ c hc2)

/-- Deduplicating a single candidate always emits it. -/
theorem dedup_singleton (c : Circ) (color : RGB) (d : ℤ) :
    deduplicate_circles_kdtree [c] color d = [⟨c.1, c.2.1, c.2.2, color, 100⟩] := by
  obtain ⟨x, y, r⟩ := c
  rfl

/-- C6 counterexample: neither the detection nor the calibration entry point
rejects radius bounds with `max ≤ min`. With `initial_min = 300 >
initial_max = 1`, `calibrate_radius` still runs the baseline verification
(its `target_count` is whatever the verifier reports, and with ground truth
present it even runs 2 search iterations) instead of raising at entry; and
`detect_circles_from_convex_edges` with `min_radius = 80 > max_radius = 10`
still runs the blob pipeline and returns a detected circle. -/
theorem claim_C6_counterexample :
    (calibrate_radius zeroVerifier 300 1).target_count = 0
    ∧ (calibrate_radius oneVerifier 300 1).target_count = 1
    ∧ (calibrate_radius oneVerifier 300 1).iterations = 2
    ∧ (detect_circles_from_convex_edges examplePrims (0, 0, 0)
        { min_radius := 80, max_radius := 10 }).length = 1 := by
  refine ⟨by decide, by decide, by decide, ?_⟩
  have hbc : blobCandidate { min_radius := 80, max_radius := 10 } examplePrims.hough
      ⟨2000, [exampleContour], 3, none⟩ = selectBestCircle exampleContour [(5, 5, 5)] := rfl
  have hsome : (selectBestCircle exampleContour [(5, 5, 5)]).isSome :=
    (selectBestCircle_isSome exampleContour [(5, 5, 5)]).mpr (by simp)
  obtain ⟨c, hc⟩ := Option.isSome_iff_exists.mp hsome
  have hcand : candidateCircles examplePrims { min_radius := 80, max_radius := 10 } = [c] := by
    rw [candidateCircles_eq_flatMap]
    show ([⟨2000, [exampleContour], 3, none⟩] : List BlobData).flatMap
      (fun b => (blobCandidate { min_radius := 80, max_radius := 10 }
        examplePrims.hough b).toList) = [c]
    rw [List.flatMap_cons, List.flatMap_nil, List.append_nil, hbc, hc]
    rfl
  show (deduplicate_circles_kdtree
    (candidateCircles examplePrims { min_radius := 80, max_radius := 10 }) (0, 0, 0)
    20).length = 1
  rw [hcand, dedup_singleton]
  rfl

/-- C6 (amended): `parse_palette` does raise `ValueError` immediately on a
malformed palette specification (wrong component count, non-integer
component, out-of-range component), but the detection and calibration entry
points perform no radius-bound validation at all: with
`max_radius ≤ min_radius` `calibrate_radius` still consults the verifier
(its `target_count` is the baseline count) and
`detect_circles_from_convex_edges` still runs the blob pipeline and
deduplication. -/
theorem claim_C6_amended :
    parse_palette "1,2"
      = Except.error ("Invalid palette specification: 1,2. "
        ++ "Use preset name (cmyk, rgb) or R,G,B;R,G,B format. "
        ++ "Error: Invalid color format: 1,2")
    ∧ parse_palette "10,20,abc"
      = Except.error ("Invalid palette specification: 10,20,abc. "
        ++ "Use preset name (cmyk, rgb) or R,G,B;R,G,B format. "
        ++ "Error: invalid literal for int() with base 10: abc")
    ∧ parse_palette "300,0,0"
      = Except.error ("Invalid palette specification: 300,0,0. "
        ++ "Use preset name (cmyk, rgb) or R,G,B;R,G,B format. "
        ++ "Error: RGB values must be 0-255: 300,0,0")
    ∧ (∀ (v : Verifier) (imin imax : ℤ), imax ≤ imin →
        (calibrate_radius v imin imax).target_count
          = (v imin imax).black_circles_detected)
    ∧ ∀ (prims : CVPrims) (color : RGB) (P : DetectParams),
        P.max_radius ≤ P.min_radius →
        detect_circles_from_convex_edges prims color P
          = deduplicate_circles_kdtree (candidateCircles prims P) color P.dedup_distance := by
  refine ⟨rfl, rfl, rfl, ?_, fun _ _ _ _ => rfl⟩
  intro v imin imax _
  by_cases h : (v imin imax).black_circles_detected = 0
  · simp [calibrate_radius, h]
  · simp [calibrate_radius, h]

/-- Witness for C6 (amended) at inverted calibration bounds `300 > 1`. -/
theorem claim_C6_amended_witness :
    (1 : ℤ) ≤ 300
    ∧ (calibrate_radius oneVerifier 300 1).target_count
        = (oneVerifier 300 1).black_circles_detected :=
  ⟨by norm_num, claim_C6_amended.2.2.2.1 oneVerifier 300 1 (by norm_num)⟩

/-- Every element of `range(0, stop, step)` is below `stop`. -/
theorem pyRange_lt (stop s : ℕ) (hs : 1 ≤ s) : ∀ x ∈ pyRange stop s, x < stop := by
  intro x hx
  simp only [pyRange, List.mem_map, List.mem_range] at hx
  obtain ⟨k, hk, rfl⟩ := hx
  have h1 : k + 1 ≤ (stop + s - 1) / s := hk
  have h2 : (k + 1) * s ≤ stop + s - 1 := (Nat.le_div_iff_mul_le (by omega)).mp h1
  have h3 : k * s + s ≤ stop + s - 1 := by rw [Nat.add_mul, Nat.one_mul] at h2; exact h2
  have h4 : stop + s - 1 < stop + s := by omega
  exact Nat.lt_of_add_lt_add_right (lt_of_le_of_lt h3 h4)

/-- The largest multiple of `step` not exceeding `px < stop` is an element
of `range(0, stop, step)`. -/
theorem pyRange_mem_div (stop s px : ℕ) (hs : 1 ≤ s) (hpx : px < stop) :
    px / s * s ∈ pyRange stop s := by
  simp only [pyRange, List.mem_map, List.mem_range]
  refine ⟨px / s, ?_, rfl⟩
  have h1 : px / s ≤ (stop - 1) / s := Nat.div_le_div_right (by omega)
  have h2 : stop + s - 1 = stop - 1 + s := by omega
  have h3 : (stop - 1 + s) / s = (stop - 1) / s + 1 := Nat.add_div_right _ (by omega)
  rw [h2, h3]
  omega

/-- A value is below the next multiple of the step. -/
theorem lt_div_mul_add_self (px s : ℕ) (hs : 0 < s) : px < px / s * s + s := by
  calc px = px / s * s + px % s := (Nat.div_add_mod' px s).symm
  _ < px / s * s + s := Nat.add_lt_add_left (Nat.mod_lt px hs) _

/-- C7 counterexample: nothing validates the radius bounds (see C6), so
`process_chunked` is reachable with `max_radius = 0`; with caller
`chunk_size = 0` it computes `overlap = 0 * 2 = 0`, leaves
`chunk_size = 0` (not below `overlap * 3 = 0`), and `generate_tiles` on a
1x1 image then returns the single empty tile `(0, 0, 0, 0)`: `x1 < x2`
fails and the pixel `(0, 0)` lies in no tile, refuting both claimed
conjuncts. -/
theorem claim_C7_counterexample :
    generate_tiles 1 1 (if (0 : ℤ) < 0 * 2 * 3 then 0 * 2 * 3 else 0) ((0 : ℤ) * 2)
      = [(0, 0, 0, 0)]
    ∧ ¬ (∀ t ∈ generate_tiles 1 1 0 0, t.1 < t.2.2.1)
    ∧ ¬ (∃ t ∈ generate_tiles 1 1 0 0,
        t.1 ≤ ((0 : ℕ) : ℤ) ∧ ((0 : ℕ) : ℤ) < t.2.2.1
          ∧ t.2.1 ≤ ((0 : ℕ) : ℤ) ∧ ((0 : ℕ) : ℤ) < t.2.2.2) := by
  decide

/-- C7 (amended): provided `max_radius ≥ 1`, with the overlap
`2 * max_radius` and the chunk size raised to at least `3 * overlap`
exactly as `process_chunked` computes them, every tile of `generate_tiles`
lies within the image (`0 ≤ x1 < x2 ≤ w`, `0 ≤ y1 < y2 ≤ h`), and every
pixel of the image is covered by some tile; for `max_radius ≤ 0` the
guarantee fails, as the counterexample above shows. -/
theorem claim_C7 (h w : ℕ) (chunk_size max_radius overlap chunk : ℤ)
    (hh : 1 ≤ h) (hw : 1 ≤ w) (hr : 1 ≤ max_radius)
    (hov : overlap = max_radius * 2)
    (hch : chunk = if chunk_size < overlap * 3 then overlap * 3 else chunk_size) :
    (∀ t ∈ generate_tiles h w chunk overlap,
      0 ≤ t.1 ∧ t.1 < t.2.2.1 ∧ t.2.2.1 ≤ (w : ℤ)
        ∧ 0 ≤ t.2.1 ∧ t.2.1 < t.2.2.2 ∧ t.2.2.2 ≤ (h : ℤ))
    ∧ ∀ px py : ℕ, px < w → py < h →
        ∃ t ∈ generate_tiles h w chunk overlap,
          t.1 ≤ (px : ℤ) ∧ (px : ℤ) < t.2.2.1
            ∧ t.2.1 ≤ (py : ℤ) ∧ (py : ℤ) < t.2.2.2 := by
  have hov2 : 2 ≤ overlap := by omega
  have hc6 : overlap * 3 ≤ chunk := by
    rw [hch]; split <;> omega
  have hstep : max 1 (chunk - overlap) = chunk - overlap := max_eq_right (by omega)
  have hs1 : 1 ≤ (max 1 (chunk - overlap)).toNat := by
    rw [hstep]; omega
  have hsle : ((max 1 (chunk - overlap)).toNat : ℤ) ≤ chunk := by
    rw [hstep]; omega
  have hmem : ∀ t, t ∈ generate_tiles h w chunk overlap ↔
      ∃ y ∈ pyRange h (max 1 (chunk - overlap)).toNat,
        ∃ x ∈ pyRange w (max 1 (chunk - overlap)).toNat,
          t = ((x : ℤ), (y : ℤ), min ((x : ℤ) + chunk) (w : ℤ),
            min ((y : ℤ) + chunk) (h : ℤ)) := by
    intro t
    constructor
    · intro ht
      have ht2 : t ∈ (pyRange h (max 1 (chunk - overlap)).toNat).flatMap
          (fun (y : ℕ) => (pyRange w (max 1 (chunk - overlap)).toNat).map
            (fun (x : ℕ) => ((x : ℤ), (y : ℤ), min ((x : ℤ) + chunk) (w : ℤ),
              min ((y : ℤ) + chunk) (h : ℤ)))) := ht
      obtain ⟨y, hy, ht3⟩ := List.mem_flatMap.mp ht2
      obtain ⟨x, hx, heq⟩ := List.mem_map.mp ht3
      exact ⟨y, hy, x, hx, heq.symm⟩
    · rintro ⟨y, hy, x, hx, rfl⟩
      show _ ∈ (pyRange h (max 1 (chunk - overlap)).toNat).flatMap
        (fun (y : ℕ) => (pyRange w (max 1 (chunk - overlap)).toNat).map
          (fun (x : ℕ) => ((x : ℤ), (y : ℤ), min ((x : ℤ) + chunk) (w : ℤ),
            min ((y : ℤ) + chunk) (h : ℤ))))
      exact List.mem_flatMap.mpr ⟨y, hy, List.mem_map.mpr ⟨x, hx, rfl⟩⟩
  constructor
  · intro t ht
    obtain ⟨y, hy, x, hx, rfl⟩ := (hmem t).mp ht
    have hxw : x < w := pyRange_lt w _ hs1 x hx
    have hyh : y < h := pyRange_lt h _ hs1 y hy
    dsimp only
    refine ⟨by omega, by omega, by omega, by omega, by omega, by omega⟩
  · intro px py hpx hpy
    set sN := (max 1 (chunk - overlap)).toNat with hsN
    have hxmem := pyRange_mem_div w sN px hs1 hpx
    have hymem := pyRange_mem_div h sN py hs1 hpy
    have hx1 : px / sN * sN ≤ px := Nat.div_mul_le_self px sN
    have hx2 : px < px / sN * sN + sN := lt_div_mul_add_self px sN hs1
    have hy1 : py / sN * sN ≤ py := Nat.div_mul_le_self py sN
    have hy2 : py < py / sN * sN + sN := lt_div_mul_add_self py sN hs1
    set qx := px / sN * sN with hqx
    set qy := py / sN * sN with hqy
    refine ⟨((qx : ℤ), (qy : ℤ), min ((qx : ℤ) + chunk) (w : ℤ),
      min ((qy : ℤ) + chunk) (h : ℤ)), (hmem _).mpr ⟨qy, hymem, qx, hxmem, rfl⟩, ?_⟩
    dsimp only
    refine ⟨by omega, by omega, by omega, by omega⟩

/-- Witness for C7 on a 1x1 image with `max_radius = 1` and requested
`chunk_size = 0` (raised to 6, overlap 2). -/
theorem claim_C7_witness :
    (∀ t ∈ generate_tiles 1 1 6 2,
      0 ≤ t.1 ∧ t.1 < t.2.2.1 ∧ t.2.2.1 ≤ ((1 : ℕ) : ℤ)
        ∧ 0 ≤ t.2.1 ∧ t.2.1 < t.2.2.2 ∧ t.2.2.2 ≤ ((1 : ℕ) : ℤ))
    ∧ ∀ px py : ℕ, px < 1 → py < 1 →
        ∃ t ∈ generate_tiles 1 1 6 2,
          t.1 ≤ (px : ℤ) ∧ (px : ℤ) < t.2.2.1
            ∧ t.2.1 ≤ (py : ℤ) ∧ (py : ℤ) < t.2.2.2 :=
  claim_C7 1 1 0 1 2 6 (by decide) (by decide) (by decide) (by decide) (by decide)

end Dotmatrix
